import Mathlib

/-!
Verification of the libvips foreign load/save core
(src/libvips/foreign/foreign.c) against its natural-language
specification.

The development shallowly embeds the registry, load-pipeline,
saveable-normalizer, metadata-policy and save-build logic of
foreign.c.  External collaborators (GLib, the pixel pipeline, the
colour operators) are either modelled from the specification (each
such definition carries a doc comment starting with
"Modelled from the spec:") or abstracted as oracle parameters, so
every theorem quantifies over their behaviour.
-/

/- ===================== Basic enumerations ===================== -/

/-- VipsCoding: the coded-pixel-format state of an image
(VIPS_CODING_NONE, VIPS_CODING_LABQ, VIPS_CODING_RAD). -/
inductive VipsCoding where
  | NONE
  | LABQ
  | RAD
deriving DecidableEq, BEq, Repr

/-- VipsBandFormat: the ten numeric pixel formats of libvips. -/
inductive VipsBandFormat where
  | UCHAR
  | CHAR
  | USHORT
  | SHORT
  | UINT
  | INT
  | FLOAT
  | COMPLEX
  | DOUBLE
  | DPCOMPLEX
deriving DecidableEq, BEq, Repr

/-- VipsInterpretation: the colour interpretations of libvips used by
the normalizer (the members appearing in vips__foreign_convert_saveable
and vips_foreign_apply_saveable). -/
inductive VipsInterpretation where
  | ERROR
  | MULTIBAND
  | B_W
  | HISTOGRAM
  | XYZ
  | LAB
  | CMYK
  | LABQ
  | RGB
  | CMC
  | LCH
  | LABS
  | sRGB
  | YXY
  | FOURIER
  | RGB16
  | GREY16
  | MATRIX
  | scRGB
  | HSV
deriving DecidableEq, BEq, Repr

/-- VipsAccess: the access pattern requested by the caller of a load
(VIPS_ACCESS_RANDOM, VIPS_ACCESS_SEQUENTIAL,
VIPS_ACCESS_SEQUENTIAL_UNBUFFERED). -/
inductive VipsAccess where
  | random
  | sequential
  | sequentialUnbuffered
deriving DecidableEq, BEq, Repr

/-- VipsForeignFlags: loader capability hints.  `lazyRead` is
VIPS_FOREIGN_PARTIAL (the image may be read lazily, in place),
`sequentialRead` is VIPS_FOREIGN_SEQUENTIAL (top-to-bottom lazy
reading), `bigendian` is VIPS_FOREIGN_BIGENDIAN. -/
structure VipsForeignFlags where
  lazyRead : Bool
  sequentialRead : Bool
  bigendian : Bool
deriving DecidableEq, BEq, Repr

/-- The image header fields that the foreign load/save core inspects:
geometry, band count, coding state and numeric band format
(the fields compared by vips_foreign_load_iscompat). -/
structure VImage where
  xsize : Nat
  ysize : Nat
  bands : Nat
  bandFmt : VipsBandFormat
  coding : VipsCoding
deriving DecidableEq, BEq, Repr

/- ===================== C4: backing-store choice ===================== -/

/-- The three kinds of backing store vips_foreign_load_temp can
produce: vips_image_new_memory, vips_image_new (a direct, in-place
image) and vips_image_new_temp_file. -/
inductive BackingStore where
  | memoryStore
  | directStore
  | tempFileStore
deriving DecidableEq, BEq, Repr

/-- The per-load settings read by vips_foreign_load_temp: the
deprecated `disc` flag, the `memory` flag, the loader capability
flags, the requested access pattern, the uncompressed size of the
image (VIPS_IMAGE_SIZEOF_IMAGE(load->out)) and the configured disc
threshold (vips_get_disc_threshold()). -/
structure LoadTempSettings where
  disc : Bool
  memory : Bool
  flags : VipsForeignFlags
  access : VipsAccess
  imageSize : Nat
  discThreshold : Nat
deriving DecidableEq, Repr

/-- Embedding of vips_foreign_load_temp (foreign.c lines 914-974):
choose the backing store for the decoded image.  `->memory` used to be
called `->disc` and default TRUE; if `disc` has been forced FALSE,
`memory` is set TRUE first. -/
def vips_foreign_load_temp (s : LoadTempSettings) : BackingStore :=
  let memory := if !s.disc then true else s.memory
  if memory then BackingStore.memoryStore
  else if s.flags.lazyRead then BackingStore.directStore
  else if s.flags.sequentialRead && s.access != VipsAccess.random then
    BackingStore.directStore
  else if s.imageSize > s.discThreshold then BackingStore.tempFileStore
  else BackingStore.memoryStore

/-- The backing-store decision order exactly as the specification
words it: in-memory if the memory flag is set or the deprecated disc
flag was forced off; otherwise direct for lazy-partial handlers;
otherwise direct if the handler is sequential-capable and non-random
access was requested; otherwise an on-disk temporary when the
uncompressed size exceeds the disc threshold; otherwise in-memory. -/
def loadTempSpec (s : LoadTempSettings) : BackingStore :=
  if s.memory || !s.disc then BackingStore.memoryStore
  else if s.flags.lazyRead then BackingStore.directStore
  else if s.flags.sequentialRead && s.access != VipsAccess.random then
    BackingStore.directStore
  else if s.imageSize > s.discThreshold then BackingStore.tempFileStore
  else BackingStore.memoryStore

/- ===================== Format registry ===================== -/

/-- Modelled from the spec: vips_isprefix / g_str_has_prefix (GLib and
iofuncs utility code, outside src): `p` is a leading substring of `s`.
Characters are compared exactly. -/
def strHasPrefix (s p : String) : Bool :=
  p.data.isPrefixOf s.data

/-- Modelled from the spec: g_str_has_suffix (GLib, outside src): `p`
is a trailing substring of `s`.  Characters are compared exactly. -/
def strHasSuffix (s p : String) : Bool :=
  p.data.isSuffixOf s.data

/-- Modelled from the spec: vips_filename_suffix_match (iofuncs
utility code, outside src) performs an exact case-insensitive suffix
match of the filename against each suffix in the list. -/
def vips_filename_suffix_match (filename : String) (suffs : List String) : Bool :=
  suffs.any fun suf =>
    (suf.data.map Char.toLower).isSuffixOf (filename.data.map Char.toLower)

/-- A registered VipsForeign subclass as the discovery code sees it:
its nickname, search priority, the VIPS_OPERATION_BLOCKED flag, its
file-suffix list (empty list models a NULL `suffs` pointer) and its
optional sniff predicate `is_a` (filename content test). -/
structure ForeignClass where
  nickname : String
  priority : Int
  blocked : Bool
  suffs : List String
  isA : Option (String → Bool)

/-- Embedding of file_add_class (foreign.c lines 430-449) as the
predicate deciding whether a registered class takes part in discovery:
blocked classes are dropped, and so is anything whose nickname begins
with "rawload" (different API). -/
def file_add_class (c : ForeignClass) : Bool :=
  !c.blocked && !(strHasPrefix c.nickname "rawload")

/-- Stable descending-priority insertion, the effect of g_slist_sort
with file_compare (foreign.c lines 451-455): `c` is placed before the
first element whose priority is less than or equal to its own, so a
sort built from it keeps items of equal priority in list order
(g_slist_sort is documented as a stable sort; GLib is outside src, so
its stability is modelled from the spec). -/
def insertPrio (c : ForeignClass) : List ForeignClass → List ForeignClass
  | [] => [c]
  | x :: xs =>
    if x.priority ≤ c.priority then c :: x :: xs else x :: insertPrio c xs

/-- The stable sort by descending priority applied by
vips_foreign_map to the filtered class list. -/
def sortPrio : List ForeignClass → List ForeignClass
  | [] => []
  | x :: xs => insertPrio x (sortPrio xs)

/-- Embedding of the iteration order built by vips_foreign_map
(foreign.c lines 476-504): collect the registered classes that
file_add_class accepts, in registration order, then stable-sort by
descending priority. -/
def vips_foreign_map_order (reg : List ForeignClass) : List ForeignClass :=
  sortPrio (reg.filter file_add_class)

/-- Embedding of vips_foreign_find_load_sub (foreign.c lines 553-591):
buffer and source loaders are skipped; a loader with an is_a sniff
predicate matches exactly when the sniff accepts the file (its suffix
list is never consulted); a loader without one falls back to suffix
matching when it has a suffix list. -/
def vips_foreign_find_load_sub (filename : String) (cls : ForeignClass) :
    Option ForeignClass :=
  if strHasSuffix cls.nickname "_buffer" || strHasSuffix cls.nickname "_source" then
    none
  else
    match cls.isA with
    | some sniff => if sniff filename then some cls else none
    | none =>
      if !cls.suffs.isEmpty then
        if vips_filename_suffix_match filename cls.suffs then some cls else none
      else none

/-- First result of `f` along a list: the map-until-non-NULL behaviour
of vips_slist_map2. -/
def firstMatch (f : α → Option β) : List α → Option β
  | [] => none
  | x :: xs =>
    match f x with
    | some r => some r
    | none => firstMatch f xs

/-- Embedding of vips_foreign_find_load (foreign.c lines 605-642)
after its file-existence and is-a-directory checks: apply
vips_foreign_find_load_sub to every candidate in the
vips_foreign_map iteration order and return the first match. -/
def vips_foreign_find_load (reg : List ForeignClass) (filename : String) :
    Option ForeignClass :=
  firstMatch (vips_foreign_find_load_sub filename) (vips_foreign_map_order reg)

/-- Embedding of vips_foreign_get_suffixes (foreign.c lines 2043-2064)
with vips_foreign_get_suffixes_add_cb (lines 2010-2026): concatenate
the suffix list of every registered saver in vips_foreign_map order,
copying each entry. -/
def vips_foreign_get_suffixes (reg : List ForeignClass) : List String :=
  ((vips_foreign_map_order reg).map (fun c => c.suffs)).flatten

/-- A sniff predicate accepting exactly the file "fake.tif", standing
for a content test whose magic bytes the fake file carries. -/
def demoSniffTest : String → Bool := fun f => f == "fake.tif"

/-- A loader that matches only by filename suffix (no is_a method),
registered with high priority. -/
def demoSuffixLoader : ForeignClass :=
  { nickname := "demosuffixload", priority := 10, blocked := false,
    suffs := [".tif"], isA := none }

/-- A sniff-capable loader with lower priority whose content test
accepts "fake.tif". -/
def demoSniffLoader : ForeignClass :=
  { nickname := "demosniffload", priority := 0, blocked := false,
    suffs := [], isA := some demoSniffTest }

/-- A registry holding a high-priority suffix-only loader and a
low-priority sniff-capable loader. -/
def demoLoadRegistry : List ForeignClass := [demoSuffixLoader, demoSniffLoader]

/-- A file saver for TIFF with the usual two suffixes. -/
def demoTiffSaver : ForeignClass :=
  { nickname := "tiffsave", priority := 0, blocked := false,
    suffs := [".tif", ".tiff"], isA := none }

/-- The buffer variant of the TIFF saver, registered with the same
suffix list, as in the real class hierarchy. -/
def demoTiffBufferSaver : ForeignClass :=
  { nickname := "tiffsave_buffer", priority := 0, blocked := false,
    suffs := [".tif", ".tiff"], isA := none }

/-- A saver registry in which two registered savers share their
suffix lists. -/
def demoSaveRegistry : List ForeignClass := [demoTiffSaver, demoTiffBufferSaver]

/-- A sniff-capable loader registered with the highest priority, so
that it is visited before the suffix-only loader. -/
def demoSniffHiLoader : ForeignClass :=
  { nickname := "demosniffhiload", priority := 20, blocked := false,
    suffs := [], isA := some demoSniffTest }

/-- A registry in which the sniff-capable loader is visited first. -/
def demoMixedRegistry : List ForeignClass := [demoSuffixLoader, demoSniffHiLoader]

/- ===================== Load pipeline state ===================== -/

/-- Embedding of vips_foreign_load_iscompat (foreign.c lines 978-992):
the decoded image and the header image are compatible exactly when
width, height, band count, coding and numeric band format all agree. -/
def vips_foreign_load_iscompat (a b : VImage) : Bool :=
  !(a.xsize != b.xsize || a.ysize != b.ysize || a.bands != b.bands ||
    a.coding != b.coding || a.bandFmt != b.bandFmt)

/-- The per-LoadState fields that vips_foreign_load_start reads and
writes: the error flag, the lazily created `real` image, whether
vips_operation_invalidate has been called on the operation, and the
header image `out` filled in by the header phase. -/
structure LoadState where
  error : Bool
  real : Option VImage
  invalidated : Bool
  out : VImage
deriving DecidableEq, Repr

/-- The behaviour of the external collaborators during one start
attempt: the backing image produced by vips_foreign_load_temp (none
models a creation failure), the image the handler class->load routine
decodes into `real` (none models a load error), whether
vips_image_pio_input succeeds, and whether vips_image_pipelinev
succeeds. -/
structure LoadOps where
  temp : Option VImage
  load : Option VImage
  pioOk : Bool
  pipelineOk : Bool
deriving DecidableEq, Repr

/-- Result of one call of the start function: the LoadState
afterwards, whether a region on `real` was produced, and whether the
handler load routine was invoked during this call. -/
structure StartResult where
  state : LoadState
  success : Bool
  loadInvoked : Bool
deriving DecidableEq, Repr

/-- Embedding of vips_foreign_load_start (foreign.c lines 997-1060):
if a previous attempt failed the call fails at once without touching
the handler; on first access the backing image is created and the
handler load routine is run; a load error, a pio error or a
header/decode mismatch invalidates the operation, sets the error flag
and fails; otherwise the decoded image is published and a region on it
is returned. -/
def vips_foreign_load_start (ops : LoadOps) (s : LoadState) : StartResult :=
  if s.error then ⟨s, false, false⟩
  else
    match s.real with
    | some _ => ⟨s, true, false⟩
    | none =>
      match ops.temp with
      | none => ⟨s, false, false⟩
      | some t =>
        match ops.load with
        | none =>
          ⟨{ s with real := some t, error := true, invalidated := true },
            false, true⟩
        | some decoded =>
          if !ops.pioOk || !vips_foreign_load_iscompat decoded s.out then
            ⟨{ s with real := some decoded, error := true, invalidated := true },
              false, true⟩
          else if !ops.pipelineOk then
            ⟨{ s with real := some decoded }, false, true⟩
          else
            ⟨{ s with real := some decoded }, true, true⟩

/-- A small uncoded 3-band 8-bit header image. -/
def demoOutImage : VImage :=
  { xsize := 64, ysize := 64, bands := 3, bandFmt := VipsBandFormat.UCHAR,
    coding := VipsCoding.NONE }

/-- A fresh LoadState directly after the header phase. -/
def demoLoadState : LoadState :=
  { error := false, real := none, invalidated := false, out := demoOutImage }

/-- Collaborator behaviour in which the handler load routine fails. -/
def demoLoadOps : LoadOps :=
  { temp := some demoOutImage, load := none, pioOk := true, pipelineOk := true }

/-- Collaborator behaviour in which the handler load routine would
succeed, used to show a failed LoadState never retries. -/
def demoLoadOpsGood : LoadOps :=
  { temp := some demoOutImage, load := some demoOutImage, pioOk := true,
    pipelineOk := true }

/- ===================== Saveable normalizer ===================== -/

/-- Modelled from the spec: VipsForeignSaveable (enum in the public
header, outside src) is the saveable-colour-model mask of a saver:
mono, RGB, CMYK and alpha capability bits.  VIPS_FOREIGN_SAVEABLE_ANY
(the saver accepts any model/format combination) is the empty
restriction mask. -/
structure VipsForeignSaveable where
  mono : Bool
  rgb : Bool
  cmyk : Bool
  alpha : Bool
deriving DecidableEq, BEq, Repr

/-- The test `saveable == VIPS_FOREIGN_SAVEABLE_ANY`. -/
def saveableIsAny (s : VipsForeignSaveable) : Bool :=
  s == { mono := false, rgb := false, cmyk := false, alpha := false }

/-- Modelled from the spec: VipsForeignCoding (enum in the public
header, outside src) is the mask of coded pixel states the saver
accepts: uncoded, packed-Lab (LABQ) and radiance (RAD). -/
structure VipsForeignCoding where
  uncodedOk : Bool
  labqOk : Bool
  radOk : Bool
deriving DecidableEq, BEq, Repr

/-- Modelled from the spec: vips_band_format_is8bit (iofuncs code,
outside src): the 8-bit band formats are unsigned and signed char. -/
def vips_band_format_is8bit (f : VipsBandFormat) : Bool :=
  f == VipsBandFormat.UCHAR || f == VipsBandFormat.CHAR

/-- One conversion step applied by the normalizer, recording the
operation called and its arguments. -/
inductive ConvStep where
  | labq2srgb
  | rad2float
  | iccImport
  | colourspace (i : VipsInterpretation)
  | iccExport (depth : Nat)
  | flatten
  | extractBand (n : Nat)
  | cast (src : VipsBandFormat) (dst : VipsBandFormat) (shift : Bool)
  | lab2labq
  | float2rad
  | decode
deriving DecidableEq, Repr

/-- The external image operators the normalizer invokes, as oracle
functions on the image header (each may fail, returning none).  They
are out-of-scope collaborators of the core, so the theorems quantify
over their behaviour.  `flatten` closes over the background value;
`extractBand` receives the start band and the band count;
`guessInterp` is vips_image_guess_interpretation (the sanity-checked
interpretation); `hasalpha` is vips_image_hasalpha. -/
structure ConvOps where
  labq2srgb : VImage → Option VImage
  rad2float : VImage → Option VImage
  iccImport : VImage → Option VImage
  colourspace : VImage → VipsInterpretation → Option VImage
  iccExport : VImage → Nat → Option VImage
  flatten : VImage → Option VImage
  extractBand : VImage → Nat → Nat → Option VImage
  cast : VImage → VipsBandFormat → Bool → Option VImage
  lab2labq : VImage → Option VImage
  float2rad : VImage → Option VImage
  decode : VImage → Option VImage
  guessInterp : VImage → VipsInterpretation
  hasalpha : VImage → Bool

/-- A normalizer result: the image produced so far together with the
trace of conversion steps applied, or none on error. -/
abbrev ConvRes := Option (VImage × List ConvStep)

/-- Sequencing of two normalizer stages, concatenating their traces
(the reference-juggling `g_object_unref(in); in = out;` pattern). -/
def seqConv (a : ConvRes) (f : VImage → ConvRes) : ConvRes :=
  a.bind fun p => (f p.1).map fun q => (q.1, p.2 ++ q.2)

/-- A conditional single-operator stage: apply `op` and record `st`
when `cond` holds, otherwise pass the image through untouched. -/
def applyStepIf (cond : Bool) (op : VImage → Option VImage) (st : ConvStep)
    (img : VImage) : ConvRes :=
  if cond then (op img).map fun x => (x, [st]) else some (img, [])

/-- The tail of vips_foreign_apply_saveable (foreign.c lines
1466-1521): if the saver supports RGB go to sRGB (RGB16 for a ushort
source); else if it supports CMYK export to CMYK via profile (16-bit
depth for a ushort source); else if it supports mono go to B_W (GREY16
for a ushort source); else error. -/
def applySaveableTail (ops : ConvOps) (img : VImage)
    (saveable : VipsForeignSaveable) (sixteenbit : Bool) : ConvRes :=
  if saveable.rgb then
    (ops.colourspace img (if sixteenbit then VipsInterpretation.RGB16
        else VipsInterpretation.sRGB)).map
      fun x => (x, [ConvStep.colourspace (if sixteenbit then
        VipsInterpretation.RGB16 else VipsInterpretation.sRGB)])
  else if saveable.cmyk then
    (ops.iccExport img (if sixteenbit then 16 else 8)).map
      fun x => (x, [ConvStep.iccExport (if sixteenbit then 16 else 8)])
  else if saveable.mono then
    (ops.colourspace img (if sixteenbit then VipsInterpretation.GREY16
        else VipsInterpretation.B_W)).map
      fun x => (x, [ConvStep.colourspace (if sixteenbit then
        VipsInterpretation.GREY16 else VipsInterpretation.B_W)])
  else none

/-- Embedding of vips_foreign_apply_saveable (foreign.c lines
1389-1522): nothing to do for an ANY saver; unpack LABQ to sRGB and
RAD to float; a mono-capable saver keeps an image with fewer than 3
bands; a CMYK-looking image (sanity-checked interpretation, at least 4
bands) is kept for a CMYK-capable saver, otherwise imported to XYZ;
then fall through to the RGB / CMYK / mono conversions.  The
`sixteenbit` flag is computed from the incoming band format. -/
def vips_foreign_apply_saveable (ops : ConvOps) (in0 : VImage)
    (saveable : VipsForeignSaveable) : ConvRes :=
  if saveableIsAny saveable then some (in0, [])
  else
    let sixteenbit := in0.bandFmt == VipsBandFormat.USHORT
    seqConv
      (applyStepIf (in0.coding == VipsCoding.LABQ) ops.labq2srgb
        ConvStep.labq2srgb in0) fun i1 =>
    seqConv
      (applyStepIf (i1.coding == VipsCoding.RAD) ops.rad2float
        ConvStep.rad2float i1) fun i2 =>
    if saveable.mono && decide (i2.bands < 3) then some (i2, [])
    else if ops.guessInterp i2 == VipsInterpretation.CMYK &&
        decide (i2.bands ≥ 4) then
      if saveable.cmyk then some (i2, [])
      else
        seqConv ((ops.iccImport i2).map fun x => (x, [ConvStep.iccImport]))
          fun i3 => applySaveableTail ops i3 saveable sixteenbit
    else applySaveableTail ops i2 saveable sixteenbit

/-- The band count the excess-band trimming step of
vips__foreign_convert_saveable expects for each sanity-checked
interpretation (the switch at foreign.c lines 1596-1623): 1 for the
grey interpretations, 3 for the RGB-family interpretations, 4 for
CMYK, 0 otherwise. -/
def interpMaxBands (i : VipsInterpretation) : Nat :=
  match i with
  | VipsInterpretation.B_W => 1
  | VipsInterpretation.GREY16 => 1
  | VipsInterpretation.RGB => 3
  | VipsInterpretation.CMC => 3
  | VipsInterpretation.LCH => 3
  | VipsInterpretation.LABS => 3
  | VipsInterpretation.sRGB => 3
  | VipsInterpretation.YXY => 3
  | VipsInterpretation.XYZ => 3
  | VipsInterpretation.LAB => 3
  | VipsInterpretation.RGB16 => 3
  | VipsInterpretation.scRGB => 3
  | VipsInterpretation.HSV => 3
  | VipsInterpretation.CMYK => 4
  | _ => 0

/-- Embedding of the excess-band trimming step of
vips__foreign_convert_saveable (foreign.c lines 1589-1641): for an
uncoded image, compute max_bands from the sanity-checked
interpretation; an ANY saver raises it to the image band count, else
an alpha-capable saver adds one; when max_bands is positive and the
image has more bands, keep the first max_bands bands. -/
def convertTrimBands (ops : ConvOps) (img : VImage)
    (saveable : VipsForeignSaveable) : ConvRes :=
  if img.coding == VipsCoding.NONE then
    let mb0 := interpMaxBands (ops.guessInterp img)
    let mb := if saveableIsAny saveable then img.bands
      else if saveable.alpha then mb0 + 1 else mb0
    if decide (mb > 0) && decide (img.bands > mb) then
      (ops.extractBand img 0 mb).map fun x => (x, [ConvStep.extractBand mb])
    else some (img, [])
  else some (img, [])

/-- Embedding of the numeric-format cast step of
vips__foreign_convert_saveable (foreign.c lines 1643-1662): for an
uncoded image, cast to the promotion-table target of the current band
format, with shift enabled exactly when the current format is not
8-bit and the target format is. -/
def convertCastFormat (ops : ConvOps) (img : VImage)
    (format : VipsBandFormat → VipsBandFormat) : ConvRes :=
  if img.coding == VipsCoding.NONE then
    (ops.cast img (format img.bandFmt)
        (!vips_band_format_is8bit img.bandFmt &&
          vips_band_format_is8bit (format img.bandFmt))).map
      fun x => (x, [ConvStep.cast img.bandFmt (format img.bandFmt)
        (!vips_band_format_is8bit img.bandFmt &&
          vips_band_format_is8bit (format img.bandFmt))])
  else some (img, [])

/-- Embedding of the re-coding step of vips__foreign_convert_saveable
(foreign.c lines 1664-1698): nothing to do when the current coding is
accepted; otherwise pack to LABQ, pack to RAD, or decode to uncoded,
in that order of preference; fall through untouched when no branch
applies. -/
def convertRecode (ops : ConvOps) (img : VImage)
    (codingMask : VipsForeignCoding) : ConvRes :=
  if (img.coding == VipsCoding.NONE && codingMask.uncodedOk) ||
      (img.coding == VipsCoding.LABQ && codingMask.labqOk) ||
      (img.coding == VipsCoding.RAD && codingMask.radOk) then
    some (img, [])
  else if codingMask.labqOk then
    (ops.lab2labq img).map fun x => (x, [ConvStep.lab2labq])
  else if codingMask.radOk then
    (ops.float2rad img).map fun x => (x, [ConvStep.float2rad])
  else if codingMask.uncodedOk then
    (ops.decode img).map fun x => (x, [ConvStep.decode])
  else some (img, [])

/-- Embedding of vips__foreign_convert_saveable (foreign.c lines
1527-1703): return the input untouched when its coding is LABQ or RAD
and the saver accepts that coding, or when it is uncoded, the saver is
ANY and the promotion table maps its band format to itself; otherwise
run the colour conversions, flatten alpha if the saver does not
support it, trim excess bands, cast to the promotion-table format and
finally re-code. -/
def vips__foreign_convert_saveable (ops : ConvOps) (in0 : VImage)
    (saveable : VipsForeignSaveable) (format : VipsBandFormat → VipsBandFormat)
    (codingMask : VipsForeignCoding) : ConvRes :=
  if (in0.coding == VipsCoding.LABQ && codingMask.labqOk) ||
      (in0.coding == VipsCoding.RAD && codingMask.radOk) then
    some (in0, [])
  else if in0.coding == VipsCoding.NONE && saveableIsAny saveable &&
      format in0.bandFmt == in0.bandFmt then
    some (in0, [])
  else
    seqConv (vips_foreign_apply_saveable ops in0 saveable) fun i1 =>
    seqConv
      (applyStepIf
        (i1.coding == VipsCoding.NONE && ops.hasalpha i1 && !saveable.alpha)
        ops.flatten ConvStep.flatten i1) fun i2 =>
    seqConv (convertTrimBands ops i2 saveable) fun i3 =>
    seqConv (convertCastFormat ops i3 format) fun i4 =>
    convertRecode ops i4 codingMask

/-- Modelled from the spec: the effect of vips_cast (conversion code,
outside src) on one unsigned 16-bit sample cast to unsigned 8-bit:
with shift enabled the value is right-shift rescaled by 8 bits, with
shift disabled it is clipped; a plain byte truncation would keep the
low byte. -/
def castUshortToUcharSample (shift : Bool) (v : Nat) : Nat :=
  if shift then v / 256 else min v 255

/-- Oracle instance whose operators leave the image header fields
untouched and always succeed, with a multiband interpretation guess
and no alpha: enough to exercise the normalizer paths concretely. -/
def demoConvOps : ConvOps :=
  { labq2srgb := fun i => some i
    rad2float := fun i => some i
    iccImport := fun i => some i
    colourspace := fun i _ => some i
    iccExport := fun i _ => some i
    flatten := fun i => some i
    extractBand := fun i _ n => some { i with bands := n }
    cast := fun i f _ => some { i with bandFmt := f }
    lab2labq := fun i => some i
    float2rad := fun i => some i
    decode := fun i => some i
    guessInterp := fun _ => VipsInterpretation.MULTIBAND
    hasalpha := fun _ => false }

/-- A 5-band uncoded 8-bit image whose sanity-checked interpretation
(under demoConvOps) is MULTIBAND — none of the recognised grey, RGB
or CMYK interpretations. -/
def demoTrimImage : VImage :=
  { xsize := 8, ysize := 8, bands := 5, bandFmt := VipsBandFormat.UCHAR,
    coding := VipsCoding.NONE }

/-- A saveable mask supporting mono plus alpha: not ANY. -/
def demoMonoAlphaMask : VipsForeignSaveable :=
  { mono := true, rgb := false, cmyk := false, alpha := true }

/-- A saveable mask supporting mono only: not ANY, no alpha. -/
def demoMonoMask : VipsForeignSaveable :=
  { mono := true, rgb := false, cmyk := false, alpha := false }

/-- The ANY saveable mask. -/
def demoAnyMask : VipsForeignSaveable :=
  { mono := false, rgb := false, cmyk := false, alpha := false }

/-- A coding mask accepting only uncoded images. -/
def demoUncodedCoding : VipsForeignCoding :=
  { uncodedOk := true, labqOk := false, radOk := false }

/-- A coding mask accepting uncoded and packed-Lab images, as the
vips file saver declares. -/
def demoLabqCoding : VipsForeignCoding :=
  { uncodedOk := true, labqOk := true, radOk := false }

/-- A packed-Lab coded image. -/
def demoLabqImage : VImage :=
  { xsize := 8, ysize := 8, bands := 4, bandFmt := VipsBandFormat.UCHAR,
    coding := VipsCoding.LABQ }

/-- An uncoded 16-bit RGB-shaped image. -/
def demoUshortImage : VImage :=
  { xsize := 8, ysize := 8, bands := 3, bandFmt := VipsBandFormat.USHORT,
    coding := VipsCoding.NONE }

/-- A promotion table that maps every band format to unsigned 8-bit,
as an 8-bit-only saver declares. -/
def demoUcharTable : VipsBandFormat → VipsBandFormat :=
  fun _ => VipsBandFormat.UCHAR

/-- The identity promotion table (the vips_foreign_save_format_table
default: no cast on save). -/
def demoIdTable : VipsBandFormat → VipsBandFormat := fun f => f

/- ===================== Metadata policy ===================== -/

/-- VIPS_META_EXIF_NAME, an external metadata key contract. -/
def metaExifName : String := "exif-data"

/-- VIPS_META_XMP_NAME, an external metadata key contract. -/
def metaXmpName : String := "xmp-data"

/-- VIPS_META_IPTC_NAME, an external metadata key contract. -/
def metaIptcName : String := "iptc-data"

/-- VIPS_META_ICC_NAME, an external metadata key contract. -/
def metaIccName : String := "icc-profile-data"

/-- VIPS_META_IMAGEDESCRIPTION, an external metadata key contract. -/
def metaImageDescription : String := "image-description"

/-- Modelled from the spec: VipsForeignKeep (enum in the public
header, outside src), the metadata-keep mask: EXIF, XMP, IPTC, ICC
and a catch-all "other" bit. -/
structure VipsForeignKeep where
  exif : Bool
  xmp : Bool
  iptc : Bool
  icc : Bool
  other : Bool
deriving DecidableEq, BEq, Repr

/-- VIPS_FOREIGN_KEEP_ALL: every category retained. -/
def keepAll : VipsForeignKeep :=
  { exif := true, xmp := true, iptc := true, icc := true, other := true }

/-- VIPS_FOREIGN_KEEP_NONE: nothing retained. -/
def keepNone : VipsForeignKeep :=
  { exif := false, xmp := false, iptc := false, icc := false, other := false }

/-- The metadata view of an image: its named fields, each carrying a
blob payload (byte list). -/
structure MetaImage where
  fields : List (String × List Nat)
deriving DecidableEq, Repr

/-- Modelled from the spec: vips_image_get_typeof / get_blob (iofuncs
code, outside src): look up the payload of a named field. -/
def lookupField (img : MetaImage) (name : String) : Option (List Nat) :=
  (img.fields.find? fun f => f.1 == name).map fun f => f.2

/-- Modelled from the spec: vips_image_remove (iofuncs code, outside
src): drop every entry of the named field. -/
def removeField (img : MetaImage) (name : String) : MetaImage :=
  { fields := img.fields.filter fun f => !(f.1 == name) }

/-- The field filter of vips_foreign_save_remove_metadata (foreign.c
lines 1705-1716): only png-comment chunks, magick profiles, the image
description and the "-data" blobs count as removable metadata. -/
def isMetaCandidate (name : String) : Bool :=
  strHasPrefix name "png-comment-" || strHasPrefix name "magickprofile-" ||
    name == metaImageDescription || strHasSuffix name "-data"

/-- The retention test of vips_foreign_save_remove_metadata
(foreign.c lines 1718-1727): a named category survives when its keep
bit is set, and anything survives when the "other" bit is set. -/
def keepField (keep : VipsForeignKeep) (name : String) : Bool :=
  (name == metaExifName && keep.exif) || (name == metaXmpName && keep.xmp) ||
    (name == metaIptcName && keep.iptc) || (name == metaIccName && keep.icc) ||
    keep.other

/-- The effect of vips_image_map with
vips_foreign_save_remove_metadata (foreign.c lines 1745-1749): drop
every metadata-candidate field whose category is not kept
(vips_image_map itself is iofuncs code outside src, modelled from the
spec as a walk over all fields). -/
def removeMetadataWalk (keep : VipsForeignKeep) (img : MetaImage) : MetaImage :=
  { fields := img.fields.filter fun f =>
      !(isMetaCandidate f.1 && !keepField keep f.1) }

/-- The external collaborators of vips__foreign_update_metadata:
vips__exif_update (rebuild the serialized EXIF block, may fail) and
vips_icc_is_compatible_profile (structural compatibility of a profile
with an image), as oracles. -/
structure MetaOps where
  exifUpdate : MetaImage → Option MetaImage
  iccCompatible : MetaImage → List Nat → Bool

/-- The image after the EXIF rebuild and the removal walk, before the
ICC compatibility check: the walk runs only when the keep mask is not
VIPS_FOREIGN_KEEP_ALL. -/
def metaAfterRemoval (keep : VipsForeignKeep) (img1 : MetaImage) : MetaImage :=
  if keep == keepAll then img1 else removeMetadataWalk keep img1

/-- Embedding of vips__foreign_update_metadata (foreign.c lines
1735-1768): rebuild EXIF when kept; unless keeping all, walk the
fields and drop unkept metadata; then, when ICC is kept and an ICC
profile field is present, drop the profile if it is not compatible
with the image, succeeding either way. -/
def vips__foreign_update_metadata (ops : MetaOps) (keep : VipsForeignKeep)
    (img : MetaImage) : Option MetaImage :=
  (if keep.exif then ops.exifUpdate img else some img).bind fun img1 =>
    if keep.icc then
      match lookupField (metaAfterRemoval keep img1) metaIccName with
      | some blob =>
        if ops.iccCompatible (metaAfterRemoval keep img1) blob then
          some (metaAfterRemoval keep img1)
        else some (removeField (metaAfterRemoval keep img1) metaIccName)
      | none => some (metaAfterRemoval keep img1)
    else some (metaAfterRemoval keep img1)

/-- The argument state vips_foreign_save_build reads: whether the
deprecated strip argument was set and its value, whether the keep
argument was set and its value, and whether the profile argument was
set. -/
structure SaveBuildArgs where
  stripSet : Bool
  strip : Bool
  keepSet : Bool
  keep : VipsForeignKeep
  profileSet : Bool
deriving DecidableEq, Repr

/-- Embedding of the keep-mask computation of vips_foreign_save_build
(foreign.c lines 1770-1787): a set strip argument (with keep unset)
maps to KEEP_NONE or KEEP_ALL; then, when the ICC bit is clear and a
user profile has been supplied, the ICC bit is added. -/
def vips_foreign_save_strip_keep (a : SaveBuildArgs) : VipsForeignKeep :=
  if a.stripSet && !a.keepSet then (if a.strip then keepNone else keepAll)
  else a.keep

/-- The second half of the keep-mask computation of
vips_foreign_save_build: when the ICC bit is clear and a user profile
has been supplied, the ICC bit is added. -/
def vips_foreign_save_build_keep (a : SaveBuildArgs) : VipsForeignKeep :=
  if !(vips_foreign_save_strip_keep a).icc && a.profileSet then
    { vips_foreign_save_strip_keep a with icc := true }
  else vips_foreign_save_strip_keep a

/-- The metadata phase of vips_foreign_save_build (foreign.c lines
1789-1811): the metadata policy runs with the keep mask computed by
the build phase. -/
def vips_foreign_save_build_metadata (ops : MetaOps) (a : SaveBuildArgs)
    (img : MetaImage) : Option MetaImage :=
  vips__foreign_update_metadata ops (vips_foreign_save_build_keep a) img

/-- Oracle instance whose EXIF rebuild is the identity and which
declares every profile incompatible. -/
def demoMetaOps : MetaOps :=
  { exifUpdate := fun i => some i, iccCompatible := fun _ _ => false }

/-- An image carrying only an ICC profile field. -/
def demoMetaImage : MetaImage :=
  { fields := [(metaIccName, [1, 2, 3])] }

/-- Save arguments using the deprecated strip flag together with a
user-supplied profile. -/
def demoStripArgs : SaveBuildArgs :=
  { stripSet := true, strip := true, keepSet := false, keep := keepAll,
    profileSet := true }

/- ========================= THEOREMS ========================= -/

/-- C4: for every load whose handler has a separate decode step, the
backing store for the decoded image follows exactly the claimed
decision order: memory if the memory flag is set (or the deprecated
disc flag was forced off); otherwise direct for lazy-partial handlers;
otherwise direct for sequential handlers under non-random access;
otherwise a temporary disc file when the uncompressed size exceeds the
disc threshold; otherwise memory. -/
theorem load_temp_follows_spec_order (s : LoadTempSettings) :
    vips_foreign_load_temp s = loadTempSpec s := by
  unfold vips_foreign_load_temp loadTempSpec
  cases hd : s.disc <;> cases hm : s.memory <;> simp [hd, hm]

/- Helper lemmas about the stable priority sort. -/

theorem mem_insertPrio {c x : ForeignClass} {l : List ForeignClass} :
    x ∈ insertPrio c l ↔ x = c ∨ x ∈ l := by
  induction l with
  | nil => simp [insertPrio]
  | cons y ys ih =>
    unfold insertPrio
    by_cases h : y.priority ≤ c.priority
    · simp [h]
    · rw [if_neg h]
      simp only [List.mem_cons, ih]
      tauto

theorem insertPrio_perm (c : ForeignClass) (l : List ForeignClass) :
    (insertPrio c l).Perm (c :: l) := by
  induction l with
  | nil => exact List.Perm.refl _
  | cons y ys ih =>
    unfold insertPrio
    by_cases h : y.priority ≤ c.priority
    · simp [h]
    · simp only [h, if_neg]
      exact (ih.cons y).trans (List.Perm.swap c y ys)

theorem sortPrio_perm (l : List ForeignClass) : (sortPrio l).Perm l := by
  induction l with
  | nil => exact List.Perm.refl _
  | cons y ys ih =>
    exact (insertPrio_perm y (sortPrio ys)).trans (ih.cons y)

theorem pairwise_insertPrio {c : ForeignClass} {l : List ForeignClass}
    (h : l.Pairwise (fun a b => b.priority ≤ a.priority)) :
    (insertPrio c l).Pairwise (fun a b => b.priority ≤ a.priority) := by
  induction l with
  | nil => simp [insertPrio]
  | cons y ys ih =>
    rw [List.pairwise_cons] at h
    obtain ⟨hy, hys⟩ := h
    unfold insertPrio
    by_cases hle : y.priority ≤ c.priority
    · simp only [hle, if_pos]
      refine List.Pairwise.cons ?_ (List.Pairwise.cons hy hys)
      intro b hb
      rcases List.mem_cons.mp hb with rfl | hb
      · exact hle
      · exact le_trans (hy b hb) hle
    · simp only [hle, if_neg]
      refine List.Pairwise.cons ?_ (ih hys)
      intro b hb
      rcases mem_insertPrio.mp hb with rfl | hb
      · exact le_of_lt (lt_of_not_le hle)
      · exact hy b hb

theorem sortPrio_pairwise (l : List ForeignClass) :
    (sortPrio l).Pairwise (fun a b => b.priority ≤ a.priority) := by
  induction l with
  | nil => simp [sortPrio]
  | cons y ys ih => exact pairwise_insertPrio ih

theorem insertPrio_filter (k : Int) (c : ForeignClass) (l : List ForeignClass) :
    (insertPrio c l).filter (fun x => x.priority == k) =
      if c.priority == k then c :: l.filter (fun x => x.priority == k)
      else l.filter (fun x => x.priority == k) := by
  induction l with
  | nil => by_cases hc : c.priority = k <;> simp [insertPrio, hc]
  | cons y ys ih =>
    unfold insertPrio
    by_cases hle : y.priority ≤ c.priority
    · rw [if_pos hle]
      by_cases hc : c.priority = k <;> simp [hc, List.filter_cons]
    · rw [if_neg hle, List.filter_cons, ih]
      by_cases hc : c.priority = k
      · have hy : ¬y.priority = k := fun h => hle (le_of_eq (h.trans hc.symm))
        simp [hc, hy, List.filter_cons]
      · simp [hc, List.filter_cons]

theorem sortPrio_filter (k : Int) (l : List ForeignClass) :
    (sortPrio l).filter (fun x => x.priority == k) =
      l.filter (fun x => x.priority == k) := by
  induction l with
  | nil => rfl
  | cons y ys ih =>
    show (insertPrio y (sortPrio ys)).filter (fun x => x.priority == k) = _
    rw [insertPrio_filter]
    by_cases hy : y.priority = k <;> simp [hy, List.filter_cons, ih]

/-- C5: discovery visits the registered non-blocked handlers in a
stable descending sort by priority: the visit order is a permutation
of the filtered registration list, a handler visited later never has a
strictly higher priority than one visited earlier, and for any
priority value the handlers carrying it are visited in their
registration order. -/
theorem map_order_stable_descending_sort (reg : List ForeignClass) :
    ((vips_foreign_map_order reg).Perm (reg.filter file_add_class)) ∧
    (∀ i j : Fin (vips_foreign_map_order reg).length, i < j →
      ((vips_foreign_map_order reg).get j).priority ≤
        ((vips_foreign_map_order reg).get i).priority) ∧
    (∀ k : Int,
      (vips_foreign_map_order reg).filter (fun c => c.priority == k) =
        (reg.filter file_add_class).filter (fun c => c.priority == k)) := by
  refine ⟨sortPrio_perm _, ?_, fun k => sortPrio_filter k _⟩
  intro i j hij
  exact List.pairwise_iff_get.mp
    (sortPrio_pairwise (reg.filter file_add_class)) i j hij

/-- Closed instance of C5: in the demo registry the priority-10
suffix loader is visited before the priority-0 sniff loader. -/
theorem map_order_stable_descending_sort_witness :
    ((vips_foreign_map_order demoLoadRegistry).get
        ⟨1, by decide⟩).priority ≤
      ((vips_foreign_map_order demoLoadRegistry).get ⟨0, by decide⟩).priority :=
  (map_order_stable_descending_sort demoLoadRegistry).2.1 ⟨0, by decide⟩
    ⟨1, by decide⟩ (by decide)

/- Helper lemmas for find_load. -/

theorem find_load_sub_eq_some {filename : String} {c r : ForeignClass}
    (h : vips_foreign_find_load_sub filename c = some r) :
    r = c ∧ ∀ f, c.isA = some f → f filename = true := by
  obtain ⟨nick, prio, blk, suffs, isA⟩ := c
  cases isA with
  | some sniff =>
    unfold vips_foreign_find_load_sub at h
    by_cases hn : (strHasSuffix nick "_buffer" || strHasSuffix nick "_source") = true
    · rw [if_pos hn] at h
      simp at h
    · rw [if_neg hn] at h
      simp only at h
      by_cases hs : sniff filename = true
      · rw [if_pos hs] at h
        injection h with h2
        refine ⟨h2.symm, ?_⟩
        intro f hf
        injection hf with hf2
        rw [← hf2]
        exact hs
      · rw [if_neg hs] at h
        simp at h
  | none =>
    unfold vips_foreign_find_load_sub at h
    by_cases hn : (strHasSuffix nick "_buffer" || strHasSuffix nick "_source") = true
    · rw [if_pos hn] at h
      simp at h
    · rw [if_neg hn] at h
      simp only at h
      refine ⟨?_, ?_⟩
      · by_cases he : (!List.isEmpty suffs) = true
        · rw [if_pos he] at h
          by_cases hm : vips_filename_suffix_match filename suffs = true
          · rw [if_pos hm] at h
            injection h with h2
            exact h2.symm
          · rw [if_neg hm] at h
            simp at h
        · rw [if_neg he] at h
          simp at h
      · intro f hf
        simp at hf

theorem firstMatch_cons {α β : Type} (f : α → Option β) (x : α) (xs : List α) :
    firstMatch f (x :: xs) =
      (match f x with | some r => some r | none => firstMatch f xs) := rfl

theorem firstMatch_sniff_first (filename : String) (c : ForeignClass)
    (l2 : List ForeignClass)
    (hsub : vips_foreign_find_load_sub filename c = some c)
    (hsniff : c.isA.isSome = true) :
    ∀ l1 : List ForeignClass,
      (∀ d ∈ l1, d.isA = none → vips_foreign_find_load_sub filename d = none) →
      (firstMatch (vips_foreign_find_load_sub filename) (l1 ++ c :: l2)).isSome = true ∧
      ∀ r, firstMatch (vips_foreign_find_load_sub filename) (l1 ++ c :: l2) = some r →
        ∃ f, r.isA = some f ∧ f filename = true := by
  intro l1
  induction l1 with
  | nil =>
    intro _
    rw [List.nil_append, firstMatch_cons, hsub]
    constructor
    · rfl
    · intro r hr
      have hr2 : some c = some r := hr
      injection hr2 with h2
      subst h2
      cases hopt : c.isA with
      | none =>
        rw [hopt] at hsniff
        simp at hsniff
      | some f =>
        exact ⟨f, rfl, (find_load_sub_eq_some hsub).2 f hopt⟩
  | cons d l1x ih =>
    intro hbefore
    rw [List.cons_append, firstMatch_cons]
    cases hd : vips_foreign_find_load_sub filename d with
    | none =>
      exact ih (fun e he hn => hbefore e (List.mem_cons_of_mem _ he) hn)
    | some r0 =>
      constructor
      · rfl
      · intro r hr
        have hr2 : some r0 = some r := hr
        injection hr2 with h2
        subst h2
        obtain ⟨hrd, hacc⟩ := find_load_sub_eq_some hd
        subst hrd
        cases hopt : r0.isA with
        | none =>
          have hnone := hbefore r0 (List.mem_cons_self r0 l1x) hopt
          rw [hnone] at hd
          simp at hd
        | some f =>
          exact ⟨f, rfl, hacc f hopt⟩

/-- C1 (amended): file-based discovery returns the first handler in
the priority-sorted visit order whose test succeeds, where a handler
with a sniff predicate is tested by its sniff alone and a handler
without one by suffix match.  Hence, whenever a sniff-capable handler
whose sniff accepts the file is visited and no suffix-only handler
visited before it matches, find_load resolves to a handler whose sniff
predicate accepts the file: a handler with a sniffer is never skipped
in favor of a suffix-only match found later in the visit order. -/
theorem find_load_sniff_precedence_amended (reg : List ForeignClass)
    (filename : String) (l1 l2 : List ForeignClass) (c : ForeignClass)
    (horder : vips_foreign_map_order reg = l1 ++ c :: l2)
    (hsub : vips_foreign_find_load_sub filename c = some c)
    (hsniff : c.isA.isSome = true)
    (hbefore : ∀ d ∈ l1, d.isA = none → vips_foreign_find_load_sub filename d = none) :
    (vips_foreign_find_load reg filename).isSome = true ∧
    ∀ r, vips_foreign_find_load reg filename = some r →
      ∃ f, r.isA = some f ∧ f filename = true := by
  unfold vips_foreign_find_load
  rw [horder]
  exact firstMatch_sniff_first filename c l2 hsub hsniff l1 hbefore

/-- Closed instance of amended C1: in the registry where the
sniff-capable loader has the highest priority, discovery of the fake
TIFF file succeeds (and, by the theorem, resolves by sniffing). -/
theorem find_load_sniff_precedence_amended_witness :
    (vips_foreign_find_load demoMixedRegistry "fake.tif").isSome = true :=
  (find_load_sniff_precedence_amended demoMixedRegistry "fake.tif" []
    [demoSuffixLoader] demoSniffHiLoader rfl rfl rfl
    (by intro d hd hn; cases hd)).1

/-- C1 (counterexample): with a suffix-only loader of priority 10 and
a sniff-capable loader of priority 0 whose sniff accepts "fake.tif",
find_load resolves "fake.tif" to the suffix-only loader, although the
leading bytes satisfy a registered sniff predicate — refuting the
claim that a sniff-matching loader always wins regardless of
registration order and priority. -/
theorem find_load_sniff_precedence_counterexample :
    demoSniffLoader.isA = some demoSniffTest ∧
    demoSniffTest "fake.tif" = true ∧
    demoSniffLoader ∈ demoLoadRegistry ∧
    vips_foreign_find_load demoLoadRegistry "fake.tif" = some demoSuffixLoader ∧
    demoSuffixLoader.isA = none :=
  ⟨rfl, by decide, List.mem_cons_of_mem _ (List.mem_cons_self _ _), rfl, rfl⟩

/-- C8 (amended): the supported-suffixes query returns the
concatenation of every registered saver suffix list in visit order;
duplicates are not removed, but as a set of strings the result is
exactly the union of the suffix lists of the registered,
non-blocked savers. -/
theorem get_suffixes_union_amended (reg : List ForeignClass) (s : String) :
    s ∈ vips_foreign_get_suffixes reg ↔
      ∃ c, c ∈ reg ∧ file_add_class c = true ∧ s ∈ c.suffs := by
  unfold vips_foreign_get_suffixes vips_foreign_map_order
  constructor
  · intro hs
    rw [List.mem_flatten] at hs
    obtain ⟨l, hl, hsl⟩ := hs
    rw [List.mem_map] at hl
    obtain ⟨c, hc, rfl⟩ := hl
    have hc2 : c ∈ reg.filter file_add_class := (sortPrio_perm _).mem_iff.mp hc
    rw [List.mem_filter] at hc2
    exact ⟨c, hc2.1, hc2.2, hsl⟩
  · rintro ⟨c, hcreg, hadd, hcs⟩
    rw [List.mem_flatten]
    refine ⟨c.suffs, ?_, hcs⟩
    rw [List.mem_map]
    exact ⟨c, (sortPrio_perm _).mem_iff.mpr (List.mem_filter.mpr ⟨hcreg, hadd⟩), rfl⟩

/-- C8 (counterexample): with the TIFF file saver and the TIFF buffer
saver both registered, the suffixes query returns ".tif" and ".tiff"
twice each — the result is not a set in which each suffix appears
once. -/
theorem get_suffixes_union_counterexample :
    vips_foreign_get_suffixes demoSaveRegistry =
      [".tif", ".tiff", ".tif", ".tiff"] ∧
    ¬(vips_foreign_get_suffixes demoSaveRegistry).Nodup := by
  constructor
  · rfl
  · decide

/- Helper lemma: a failed LoadState short-circuits. -/

theorem load_start_error_short_circuit (ops : LoadOps) (s : LoadState)
    (h : s.error = true) :
    vips_foreign_load_start ops s = ⟨s, false, false⟩ := by
  unfold vips_foreign_load_start
  rw [h]
  simp

/-- C2: once a lazy decode attempt fails — the handler load routine
returns an error, the pio check fails, or the decoded image disagrees
with the header image in width, height, bands, coding or band format —
the start call fails, the error flag is set and the operation is
invalidated; and every subsequent start call on that LoadState returns
failure immediately without invoking the handler load routine. -/
theorem load_start_failure_is_permanent (ops : LoadOps) (s : LoadState)
    (t : VImage)
    (herr : s.error = false) (hreal : s.real = none) (htemp : ops.temp = some t)
    (hfail : ops.load = none ∨ ops.pioOk = false ∨
      (∀ d, ops.load = some d → vips_foreign_load_iscompat d s.out = false)) :
    (vips_foreign_load_start ops s).success = false ∧
    (vips_foreign_load_start ops s).state.error = true ∧
    (vips_foreign_load_start ops s).state.invalidated = true ∧
    ∀ ops2 : LoadOps,
      vips_foreign_load_start ops2 (vips_foreign_load_start ops s).state =
        ⟨(vips_foreign_load_start ops s).state, false, false⟩ := by
  cases hload : ops.load with
  | none =>
    have hr : vips_foreign_load_start ops s =
        ⟨{ s with real := some t, error := true, invalidated := true },
          false, true⟩ := by
      unfold vips_foreign_load_start
      rw [herr, hreal, htemp, hload]
      simp
    rw [hr]
    exact ⟨rfl, rfl, rfl,
      fun ops2 => load_start_error_short_circuit ops2 _ rfl⟩
  | some d =>
    have hcompat : ops.pioOk = false ∨
        vips_foreign_load_iscompat d s.out = false := by
      rcases hfail with h | h | h
      · rw [hload] at h
        cases h
      · exact Or.inl h
      · exact Or.inr (h d hload)
    have hcond : (!ops.pioOk || !vips_foreign_load_iscompat d s.out) = true := by
      rcases hcompat with h | h <;> simp [h]
    have hr : vips_foreign_load_start ops s =
        ⟨{ s with real := some d, error := true, invalidated := true },
          false, true⟩ := by
      unfold vips_foreign_load_start
      rw [herr, hreal, htemp, hload]
      simp [hcond]
    rw [hr]
    exact ⟨rfl, rfl, rfl,
      fun ops2 => load_start_error_short_circuit ops2 _ rfl⟩

/-- Closed instance of C2: after a failed load attempt the error flag
and the invalidation flag are set, and a later start call with a
handler that would now succeed still fails without invoking it. -/
theorem load_start_failure_is_permanent_witness :
    (vips_foreign_load_start demoLoadOps demoLoadState).state.error = true ∧
    vips_foreign_load_start demoLoadOpsGood
        (vips_foreign_load_start demoLoadOps demoLoadState).state =
      ⟨(vips_foreign_load_start demoLoadOps demoLoadState).state,
        false, false⟩ :=
  ⟨(load_start_failure_is_permanent demoLoadOps demoLoadState demoOutImage
      rfl rfl rfl (Or.inl rfl)).2.1,
    (load_start_failure_is_permanent demoLoadOps demoLoadState demoOutImage
      rfl rfl rfl (Or.inl rfl)).2.2.2 demoLoadOpsGood⟩

/-- C3: the normalizer is the identity — it returns the input image
with no conversion step — whenever (i) the input coding is packed-Lab
or radiance and the coding mask accepts it, or (ii) the input is
uncoded, the saveable mask is ANY and the promotion table maps the
input band format to itself. -/
theorem convert_saveable_fastpath_identity (ops : ConvOps) (in0 : VImage)
    (saveable : VipsForeignSaveable) (format : VipsBandFormat → VipsBandFormat)
    (codingMask : VipsForeignCoding)
    (h : (in0.coding = VipsCoding.LABQ ∧ codingMask.labqOk = true) ∨
      (in0.coding = VipsCoding.RAD ∧ codingMask.radOk = true) ∨
      (in0.coding = VipsCoding.NONE ∧ saveableIsAny saveable = true ∧
        format in0.bandFmt = in0.bandFmt)) :
    vips__foreign_convert_saveable ops in0 saveable format codingMask =
      some (in0, []) := by
  unfold vips__foreign_convert_saveable
  rcases h with ⟨hc, hm⟩ | ⟨hc, hm⟩ | ⟨hc, hany, hfmt⟩
  · rw [hc, hm]
    rfl
  · rw [hc, hm]
    rfl
  · have hbeq : (in0.bandFmt == in0.bandFmt) = true := by
      cases in0.bandFmt <;> rfl
    rw [hc, hany, hfmt, hbeq]
    rfl

/-- Closed instance of C3: a packed-Lab image against a saver that
accepts packed-Lab, and an uncoded ushort image against an ANY saver
with the identity promotion table, both pass through untouched. -/
theorem convert_saveable_fastpath_identity_witness :
    vips__foreign_convert_saveable demoConvOps demoLabqImage demoMonoMask
        demoIdTable demoLabqCoding = some (demoLabqImage, []) ∧
    vips__foreign_convert_saveable demoConvOps demoUshortImage demoAnyMask
        demoIdTable demoUncodedCoding = some (demoUshortImage, []) :=
  ⟨convert_saveable_fastpath_identity demoConvOps demoLabqImage demoMonoMask
      demoIdTable demoLabqCoding (Or.inl ⟨rfl, rfl⟩),
    convert_saveable_fastpath_identity demoConvOps demoUshortImage demoAnyMask
      demoIdTable demoUncodedCoding (Or.inr (Or.inr ⟨rfl, rfl, rfl⟩))⟩

/-- C6: in the numeric-format cast step applied to an uncoded image,
the recorded cast goes to the promotion-table target of the current
band format and has shift-rescale enabled exactly when the current
format is wider than 8 bits and the target format is 8-bit. -/
theorem convert_cast_shift_iff (ops : ConvOps) (img : VImage)
    (format : VipsBandFormat → VipsBandFormat) (img2 : VImage)
    (steps : List ConvStep) (src dst : VipsBandFormat) (sh : Bool)
    (hcoding : img.coding = VipsCoding.NONE)
    (hres : convertCastFormat ops img format = some (img2, steps))
    (hmem : ConvStep.cast src dst sh ∈ steps) :
    dst = format src ∧
    (sh = true ↔ (vips_band_format_is8bit src = false ∧
      vips_band_format_is8bit dst = true)) := by
  unfold convertCastFormat at hres
  rw [hcoding] at hres
  rw [if_pos (show (VipsCoding.NONE == VipsCoding.NONE) = true from rfl)]
    at hres
  cases hc : ops.cast img (format img.bandFmt)
      (!vips_band_format_is8bit img.bandFmt &&
        vips_band_format_is8bit (format img.bandFmt)) with
  | none =>
    rw [hc] at hres
    simp at hres
  | some out =>
    rw [hc] at hres
    simp only [Option.map_some', Option.some.injEq, Prod.mk.injEq] at hres
    obtain ⟨hout, hsteps⟩ := hres
    rw [← hsteps] at hmem
    rw [List.mem_singleton] at hmem
    injection hmem with hsrc hdst hsh
    subst hsrc
    subst hdst
    subst hsh
    refine ⟨rfl, ?_⟩
    cases h1 : vips_band_format_is8bit img.bandFmt <;>
      cases h2 : vips_band_format_is8bit (format img.bandFmt) <;>
      simp [h1, h2]

/-- Closed instance of C6: for a ushort image against an 8-bit-only
promotion table the cast is shift-enabled, and the shift rescale maps
the sample 0x1234 to 0x12 rather than to the low byte 0x34. -/
theorem convert_cast_shift_iff_witness :
    (VipsBandFormat.UCHAR = demoUcharTable VipsBandFormat.USHORT ∧
      (true = true ↔ (vips_band_format_is8bit VipsBandFormat.USHORT = false ∧
        vips_band_format_is8bit VipsBandFormat.UCHAR = true))) ∧
    castUshortToUcharSample true 4660 = 18 ∧
    castUshortToUcharSample true 4660 ≠ 52 :=
  ⟨convert_cast_shift_iff demoConvOps demoUshortImage demoUcharTable
      { demoUshortImage with bandFmt := VipsBandFormat.UCHAR }
      [ConvStep.cast VipsBandFormat.USHORT VipsBandFormat.UCHAR true]
      VipsBandFormat.USHORT VipsBandFormat.UCHAR true rfl rfl (by decide),
    by decide, by decide⟩

/-- C10 (counterexample): a 5-band uncoded image whose sanity-checked
interpretation is MULTIBAND (not grey, RGB-family or CMYK), against a
mono-plus-alpha saver (not ANY), is trimmed by the excess-band step to
a single band — refuting the claim that no bands are removed. -/
theorem trim_bands_unrecognised_counterexample :
    saveableIsAny demoMonoAlphaMask = false ∧
    interpMaxBands (demoConvOps.guessInterp demoTrimImage) = 0 ∧
    demoTrimImage.bands = 5 ∧
    convertTrimBands demoConvOps demoTrimImage demoMonoAlphaMask =
      some ({ demoTrimImage with bands := 1 }, [ConvStep.extractBand 1]) :=
  ⟨rfl, rfl, rfl, rfl⟩

/-- C10 (amended): in the excess-band trimming step, an uncoded image
whose sanity-checked interpretation is none of the recognised grey,
RGB-family or CMYK interpretations, against a saver that is neither
ANY nor alpha-capable, passes through with its band count unchanged
and no step applied; with alpha in the mask the expected band count
becomes one, so larger images are trimmed to a single band. -/
theorem trim_bands_unrecognised_amended (ops : ConvOps) (img : VImage)
    (saveable : VipsForeignSaveable)
    (hcoding : img.coding = VipsCoding.NONE)
    (hinterp : interpMaxBands (ops.guessInterp img) = 0)
    (hany : saveableIsAny saveable = false)
    (halpha : saveable.alpha = false) :
    convertTrimBands ops img saveable = some (img, []) := by
  unfold convertTrimBands
  rw [hcoding]
  simp [hinterp, hany, halpha]

/-- Closed instance of amended C10: the 5-band MULTIBAND image against
the mono-only saver keeps all 5 bands in the trimming step. -/
theorem trim_bands_unrecognised_amended_witness :
    convertTrimBands demoConvOps demoTrimImage demoMonoMask =
      some (demoTrimImage, []) :=
  trim_bands_unrecognised_amended demoConvOps demoTrimImage demoMonoMask
    rfl rfl rfl rfl

/- Helper lemmas about field lookup under filtering. -/

theorem find?_filter_not {α : Type} (p : α → Bool) (l : List α) :
    (l.filter fun a => !(p a)).find? p = none := by
  induction l with
  | nil => rfl
  | cons a l ih =>
    rw [List.filter_cons]
    cases hp : p a with
    | false =>
      rw [if_pos (show (!false) = true from rfl),
        List.find?_cons_of_neg _ (by rw [hp]; exact Bool.false_ne_true)]
      exact ih
    | true =>
      rw [if_neg (by decide)]
      exact ih

theorem find?_filter_of_keep {α : Type} (p q : α → Bool) (l : List α)
    (h : ∀ a, p a = true → q a = true) :
    (l.filter q).find? p = l.find? p := by
  induction l with
  | nil => rfl
  | cons a l ih =>
    rw [List.filter_cons]
    cases hq : q a with
    | false =>
      have hp : p a = false := by
        cases hpa : p a with
        | false => rfl
        | true =>
          rw [h a hpa] at hq
          exact Bool.noConfusion hq
      rw [if_neg (by exact Bool.false_ne_true), ih,
        List.find?_cons_of_neg _ (by rw [hp]; exact Bool.false_ne_true)]
    | true =>
      rw [if_pos rfl]
      cases hpa : p a with
      | false =>
        rw [List.find?_cons_of_neg _ (by rw [hpa]; exact Bool.false_ne_true),
          List.find?_cons_of_neg _ (by rw [hpa]; exact Bool.false_ne_true)]
        exact ih
      | true =>
        rw [List.find?_cons_of_pos _ hpa, List.find?_cons_of_pos _ hpa]

theorem lookupField_removeField (img : MetaImage) (n : String) :
    lookupField (removeField img n) n = none := by
  unfold lookupField removeField
  rw [find?_filter_not (fun f => f.1 == n) img.fields]
  rfl

/-- C7: when ICC retention is requested, the EXIF phase succeeds, and
the image reaching the ICC check carries a profile that the
compatibility test rejects, the metadata update removes the profile
and returns success — an incompatible profile never fails the save. -/
theorem update_metadata_drops_incompatible_icc (ops : MetaOps)
    (keep : VipsForeignKeep) (img img1 : MetaImage) (blob : List Nat)
    (hexif : (if keep.exif then ops.exifUpdate img else some img) = some img1)
    (hicc : keep.icc = true)
    (hblob : lookupField (metaAfterRemoval keep img1) metaIccName = some blob)
    (hcompat : ops.iccCompatible (metaAfterRemoval keep img1) blob = false) :
    vips__foreign_update_metadata ops keep img =
      some (removeField (metaAfterRemoval keep img1) metaIccName) ∧
    ∀ r, vips__foreign_update_metadata ops keep img = some r →
      lookupField r metaIccName = none := by
  have h1 : vips__foreign_update_metadata ops keep img =
      some (removeField (metaAfterRemoval keep img1) metaIccName) := by
    unfold vips__foreign_update_metadata
    rw [hexif]
    simp [hicc, hblob, hcompat]
  refine ⟨h1, ?_⟩
  intro r hr
  rw [h1] at hr
  injection hr with hr2
  rw [← hr2]
  exact lookupField_removeField _ _

/-- Closed instance of C7: with keep = ALL and an always-incompatible
profile test, the update succeeds and the profile field is gone. -/
theorem update_metadata_drops_incompatible_icc_witness :
    vips__foreign_update_metadata demoMetaOps keepAll demoMetaImage =
      some (removeField (metaAfterRemoval keepAll demoMetaImage) metaIccName) :=
  (update_metadata_drops_incompatible_icc demoMetaOps keepAll demoMetaImage
    demoMetaImage [1, 2, 3] rfl rfl rfl rfl).1

/-- C9: whenever the profile argument has been set, the keep mask
computed by the save build phase carries the ICC bit — even under
keep = none or the deprecated strip flag — and the metadata removal
walk run with that mask leaves an attached ICC profile field in
place. -/
theorem save_build_profile_forces_icc_keep (a : SaveBuildArgs)
    (hp : a.profileSet = true) :
    (vips_foreign_save_build_keep a).icc = true ∧
    ∀ (img1 : MetaImage) (blob : List Nat),
      lookupField img1 metaIccName = some blob →
      lookupField (removeMetadataWalk (vips_foreign_save_build_keep a) img1)
        metaIccName = some blob := by
  have hicc : (vips_foreign_save_build_keep a).icc = true := by
    unfold vips_foreign_save_build_keep
    rw [hp]
    cases hk : (vips_foreign_save_strip_keep a).icc with
    | false =>
      rw [if_pos (show (!false && true) = true from rfl)]
    | true =>
      rw [if_neg (show ¬((!true && true) = true) from by decide)]
      exact hk
  refine ⟨hicc, ?_⟩
  intro img1 blob hb
  have hkeep : ∀ f : String × List Nat, (f.1 == metaIccName) = true →
      (!(isMetaCandidate f.1 &&
        !keepField (vips_foreign_save_build_keep a) f.1)) = true := by
    intro f hf
    have hfe : f.1 = metaIccName := eq_of_beq hf
    rw [hfe]
    have e1 : (metaIccName == metaExifName) = false := by decide
    have e2 : (metaIccName == metaXmpName) = false := by decide
    have e3 : (metaIccName == metaIptcName) = false := by decide
    have e4 : (metaIccName == metaIccName) = true := by decide
    have hkf : keepField (vips_foreign_save_build_keep a) metaIccName = true := by
      unfold keepField
      rw [hicc]
      simp [e1, e2, e3, e4]
    simp [hkf]
  unfold lookupField removeMetadataWalk
  unfold lookupField at hb
  rw [find?_filter_of_keep (fun f => f.1 == metaIccName)
    (fun f => !(isMetaCandidate f.1 &&
      !keepField (vips_foreign_save_build_keep a) f.1)) img1.fields hkeep]
  exact hb

/-- Closed instance of C9: with strip set and a user profile supplied,
the computed keep mask carries ICC and the removal walk keeps the ICC
profile field of the demo image. -/
theorem save_build_profile_forces_icc_keep_witness :
    (vips_foreign_save_build_keep demoStripArgs).icc = true ∧
    lookupField
      (removeMetadataWalk (vips_foreign_save_build_keep demoStripArgs)
        demoMetaImage) metaIccName = some [1, 2, 3] :=
  ⟨(save_build_profile_forces_icc_keep demoStripArgs rfl).1,
    (save_build_profile_forces_icc_keep demoStripArgs rfl).2
      demoMetaImage [1, 2, 3] rfl⟩
